import Mathlib

/-
Shallow embedding of the upload client of datner/uploadthing.

Embedded source:
  * src/packages/shared/src/effect.ts : the exponentialBackoff retry schedule
    (effect library Schedule combinators: exponential, spaced, andThenEither,
    compose, elapsed, whileOutput) and the JSON-decoding step of fetchEffJson.
  * src/unnamed/part_001 : uploadFile and DANGEROUS__uploadFiles of the client
    package (descriptor/file matching, onUploadBegin, transport dispatch on the
    presence of a urls field, the fixed 500 ms pre-poll sleep, the polling loop
    retried with exponentialBackoff while the error is a RetryError, the final
    UploadFileResponse record, and the sequential fail-fast Effect.all batch).

Modelling conventions:
  * Time is a Nat clock in milliseconds; network requests and timed sleeps
    advance it.  The environment (FileEnv) supplies, per file pipeline, the
    transport outcome and duration and, per poll index, the raw JSON body and
    duration of the poll response.  The transport executors themselves
    (internal/multi-part.ts, internal/presigned-post.ts) are not part of the
    sources; per spec section 4.2/4.3 they are opaque byte-transfer steps that
    either succeed or fail, which is exactly how FileEnv models them.
  * The polling loop is written with explicit fuel; all theorems either relate
    runs at the same fuel or assume enough fuel and instantiate it in their
    witnesses.  Fuel exhaustion is the res = none outcome.
  * Effect.all with no options runs its effects sequentially and fails fast;
    uploadFilesGo embeds exactly that.
  * Errors keep the names of the code: UploadThingError NOT_FOUND, the opaque
    transport failure, the schema ParseError of the polling decode, and
    RetryError (the "still waiting" marker, which escapes when the schedule
    stops).  The initial presigned fetch of DANGEROUS__uploadFiles is
    abstracted by passing the decoded descriptor list as an argument.
-/

/-- JSON values as produced by res.json() inside fetchEffJson
(src/packages/shared/src/effect.ts).  Numbers are modelled as integers; no
claim inspects numeric payloads. -/
inductive JVal : Type where
  | null : JVal
  | bool : Bool → JVal
  | num : Int → JVal
  | str : String → JVal
  | arr : List JVal → JVal
  | obj : List (String × JVal) → JVal

/-- Key lookup in a decoded JSON object (first occurrence wins, as for a
parsed JS object). -/
def lookupField (fs : List (String × JVal)) (key : String) : Option JVal :=
  (fs.find? (fun p => p.1 == key)).map Prod.snd

/-- Decoded value of the PollingResponse schema of uploadFile: the union of
the shape with status "done" (carrying an arbitrary callbackData, absent keys
decoding to none) and the shape with status "still waiting". -/
inductive PollingResponse : Type where
  | done (callbackData : Option JVal)
  | stillWaiting

/-- Decoder of the S.union of the two polling struct schemas, applied by
fetchEffJson to the poll response body: an object whose status field is the
literal "done" decodes to the first member (callbackData is S.any, read off
the object), one whose status is "still waiting" decodes to the second, and
everything else is a ParseError. -/
def decodePollingResponse : JVal → Except String PollingResponse
  | .obj fs =>
    match lookupField fs "status" with
    | some (.str "done") => .ok (.done (lookupField fs "callbackData"))
    | some (.str "still waiting") => .ok .stillWaiting
    | _ => .error "ParseError"
  | _ => .error "ParseError"

/-- Decision of one schedule step: stop, or recur after a delay (the delay is
the distance from the current time to the start of the continuation
interval). -/
inductive SchedDecision : Type where
  | done : SchedDecision
  | cont (delay : Nat) : SchedDecision
deriving DecidableEq

/-- State-passing embedding of an effect Schedule: an initial state and a step
function taking the current time, the input fed by the driver (for a retry
schedule, the error of the failed attempt) and the state, and returning the
new state, the output and the decision. -/
structure Sched (σ ι α : Type) where
  initial : σ
  step : Nat → ι → σ → σ × α × SchedDecision

namespace Sched

variable {σ σ₁ σ₂ ι α β : Type}

/-- Schedule.exponential(base, factor): recurs forever, the n-th delay (and
output) being base * factor ^ n. -/
def exponential (base factor : Nat) : Sched Nat ι Nat :=
  ⟨0, fun _ _ n => (n + 1, base * factor ^ n, .cont (base * factor ^ n))⟩

/-- Schedule.spaced(interval): recurs forever with a constant delay, its
output counting the recurrences. -/
def spaced (interval : Nat) : Sched Nat ι Nat :=
  ⟨0, fun _ _ n => (n + 1, n, .cont interval)⟩

/-- Schedule.andThenEither(self, that): drives self until it is done, then
switches to that (stepping that for the first time in the same step in which
self finishes), tagging outputs left/right by phase. -/
def andThenEither (s1 : Sched σ₁ ι α) (s2 : Sched σ₂ ι β) :
    Sched (σ₁ × σ₂ × Bool) ι (α ⊕ β) :=
  ⟨(s1.initial, s2.initial, true), fun now inp st =>
    if st.2.2 then
      match s1.step now inp st.1 with
      | (st1, out1, .cont d) => ((st1, st.2.1, true), .inl out1, .cont d)
      | (st1, _, .done) =>
        match s2.step now inp st.2.1 with
        | (st2, out2, d2) => ((st1, st2, false), .inr out2, d2)
    else
      match s2.step now inp st.2.1 with
      | (st2, out2, d2) => ((st.1, st2, false), .inr out2, d2)⟩

/-- Schedule.elapsed: outputs the time elapsed since its first step and recurs
immediately (delay 0). -/
def elapsed : Sched (Option Nat) ι Nat :=
  ⟨none, fun now _ st =>
    match st with
    | none => (some now, 0, .cont 0)
    | some start => (some start, now - start, .cont 0)⟩

/-- Schedule.compose(self, that) (self into that): feeds the output of self to
that as input, outputs the output of that, continues only while both continue,
and waits for the later of the two continuation intervals. -/
def compose (s1 : Sched σ₁ ι α) (s2 : Sched σ₂ α β) : Sched (σ₁ × σ₂) ι β :=
  ⟨(s1.initial, s2.initial), fun now inp st =>
    match s1.step now inp st.1 with
    | (st1, out1, d1) =>
      match s2.step now out1 st.2 with
      | (st2, out2, d2) =>
        ((st1, st2), out2,
          match d1, d2 with
          | .cont a, .cont b => .cont (max a b)
          | _, _ => .done)⟩

/-- Schedule.whileOutput(pred): steps the inner schedule but stops as soon as
the predicate fails on its output. -/
def whileOutput (p : α → Bool) (s : Sched σ ι α) : Sched σ ι α :=
  ⟨s.initial, fun now inp st =>
    match s.step now inp st with
    | (st1, out, .done) => (st1, out, .done)
    | (st1, out, .cont d) => (st1, out, if p out then .cont d else .done)⟩

end Sched

/-- State of the composite exponentialBackoff schedule: the andThenEither
state (exponential counter, spaced counter, still-in-left-phase flag) paired
with the start time recorded by elapsed. -/
abbrev BState : Type := (Nat × Nat × Bool) × Option Nat

/-- The exponentialBackoff schedule of src/packages/shared/src/effect.ts:
Schedule.exponential(Duration.millis(10), 4), then (andThenEither)
Schedule.spaced(Duration.seconds(1)), composed into Schedule.elapsed, with
whileOutput keeping the elapsed time at most Duration.minutes(1). -/
def exponentialBackoff (ε : Type) : Sched BState ε Nat :=
  Sched.whileOutput (fun d => decide (d ≤ 60000))
    (Sched.compose
      (Sched.andThenEither (Sched.exponential 10 4) (Sched.spaced 1000))
      Sched.elapsed)

/-- Error channel of the embedded pipeline, keeping the code's error values:
the UploadThingError with code NOT_FOUND raised on a descriptor with no
matching file, the opaque failure of a transport executor, the ParseError of
the polling-response decode, and the RetryError raised on a "still waiting"
response (it escapes the retry when the schedule stops). -/
inductive UTError : Type where
  | notFound : UTError
  | transportError (msg : String) : UTError
  | parseError : UTError
  | retryError : UTError
deriving DecidableEq

/-- Observable events of a run, in order of occurrence.  Poll requests and
transport completion carry the clock value at which they happen. -/
inductive Ev : Type where
  | uploadBegin (fileName : String)
  | transportStart (multipart : Bool) (fileName : String)
  | transportDone (fileName : String) (time : Nat)
  | slept (ms : Nat)
  | pollReq (url : String) (time : Nat)
deriving DecidableEq

/-- A local file as seen by the client: name and byte size. -/
structure UFile where
  name : String
  size : Nat
deriving DecidableEq

/-- Shape-specific part of a presigned descriptor: the PSPResponse fields
(url and form fields) or the MPUResponse fields (urls, uploadId, chunkSize,
chunkCount).  At runtime the two are told apart by the presence of the urls
field. -/
inductive PresignedExtra : Type where
  | psp (url : String) (fields : List (String × String))
  | mpu (urls : List String) (uploadId : String) (chunkSize chunkCount : Nat)

/-- A validated presigned descriptor (PresignedBase of src/unnamed/part_001
plus the shape-specific fields). -/
structure Presigned where
  key : String
  fileName : String
  fileUrl : String
  pollingJwt : String
  pollingUrl : String
  contentDisposition : String
  customId : Option String
  fileType : String
  extra : PresignedExtra

/-- The "urls" in presigned test of uploadFile: true exactly on the MPU
shape. -/
def Presigned.hasUrls (p : Presigned) : Bool :=
  match p.extra with
  | .mpu _ _ _ _ => true
  | .psp _ _ => false

/-- Outcome of a transport executor as seen by uploadFile: success or failure,
each taking some amount of time.  Modelled from the spec: the executors
(internal/multi-part.ts, internal/presigned-post.ts) are not among the
sources; spec sections 4.2 and 4.3 specify them as opaque byte-transfer steps
that either succeed or fail with a transport error, and uploadFile only
propagates their outcome. -/
inductive TransportOutcome : Type where
  | ok (dur : Nat)
  | fail (msg : String) (dur : Nat)

/-- Environment of one file pipeline: the transport outcome and, per poll
index, the raw JSON body and the duration of the poll request. -/
structure FileEnv where
  transport : TransportOutcome
  pollBody : Nat → JVal
  pollDur : Nat → Nat

/-- The caller options that matter to the embedded control flow: whether an
onUploadBegin callback was supplied. -/
structure UploadOpts where
  hasOnUploadBegin : Bool

/-- The UploadFileResponse record built by uploadFile on success. -/
structure UploadFileResponse where
  name : String
  size : Nat
  key : String
  serverData : Option JVal
  url : String

/-- Result of running a piece of the pipeline: the outcome (none when the
fuel ran out, an artifact of the embedding), the event trace, and the final
clock. -/
structure RunOut (α : Type) where
  res : Option (Except UTError α)
  trace : List Ev
  clock : Nat

/-- One poll attempt after decoding, as built in uploadFile: a decoded "done"
succeeds with the callbackData, a decoded "still waiting" fails with
RetryError, and a decode failure fails with the ParseError. -/
def pollAttempt (body : JVal) : Except UTError (Option JVal) :=
  match decodePollingResponse body with
  | .ok (.done cd) => .ok cd
  | .ok .stillWaiting => .error .retryError
  | .error _ => .error .parseError

/-- The while predicate of the Effect.retry call in uploadFile:
res instanceof RetryError. -/
def retryWhile : UTError → Bool
  | .retryError => true
  | _ => false

/-- One step of the exponentialBackoff schedule, as stepped by the retry
driver with the failed error as input. -/
def backoffStep (now : Nat) (e : UTError) (st : BState) :
    BState × Nat × SchedDecision :=
  (exponentialBackoff UTError).step now e st

/-- Initial state of the exponentialBackoff schedule. -/
def bInit : BState := ((0, 0, true), none)

/-- The polling loop of uploadFile under Effect.retry: issue a poll, decode
it; on success return the payload; on error consult the while predicate and,
if it allows a retry, step the schedule at the time the response arrived,
sleeping the decided delay before the next poll, and fail with the error as
soon as the predicate or the schedule refuses. -/
def runPoll (env : FileEnv) (url : String) :
    Nat → Nat → BState → Nat → RunOut (Option JVal)
  | 0, clock, _, _ => ⟨none, [], clock⟩
  | fuel + 1, clock, st, idx =>
    let t1 := clock + env.pollDur idx
    match pollAttempt (env.pollBody idx) with
    | .ok cd => ⟨some (.ok cd), [.pollReq url clock], t1⟩
    | .error e =>
      if retryWhile e then
        match backoffStep t1 e st with
        | (st1, _, .cont d) =>
          let R := runPoll env url fuel (t1 + d) st1 (idx + 1)
          ⟨R.res, .pollReq url clock :: .slept d :: R.trace, R.clock⟩
        | (_, _, .done) => ⟨some (.error e), [.pollReq url clock], t1⟩
      else ⟨some (.error e), [.pollReq url clock], t1⟩

/-- The per-file pipeline uploadFile of src/unnamed/part_001: find the file
matching the descriptor by name (failing the pipeline with NOT_FOUND when
there is none), invoke onUploadBegin if supplied, run the multipart transport
when the descriptor has a urls field and the presigned-POST transport
otherwise, sleep 500 ms, then poll the descriptor's pollingUrl under the
retry schedule and build the UploadFileResponse from the matched file, the
descriptor key and the polled callbackData. -/
def uploadFile (opts : UploadOpts) (files : List UFile) (p : Presigned)
    (env : FileEnv) (fuel clock : Nat) : RunOut UploadFileResponse :=
  match files.find? (fun f => f.name == p.fileName) with
  | none => ⟨some (.error .notFound), [], clock⟩
  | some file =>
    let beginTr : List Ev :=
      if opts.hasOnUploadBegin then [.uploadBegin file.name] else []
    match env.transport with
    | .fail msg dur =>
      ⟨some (.error (.transportError msg)),
        beginTr ++ [.transportStart p.hasUrls file.name], clock + dur⟩
    | .ok dur =>
      let t1 := clock + dur
      let R := runPoll env p.pollingUrl fuel (t1 + 500) bInit 0
      ⟨R.res.map (fun x =>
          x.map (fun cd =>
            ⟨file.name, file.size, p.key, cd, "https://utfs.io/f/" ++ p.key⟩)),
        beginTr ++ .transportStart p.hasUrls file.name
          :: .transportDone file.name t1 :: .slept 500 :: R.trace,
        R.clock⟩

/-- The Effect.all of DANGEROUS__uploadFiles with its default options: the
per-file pipelines run sequentially in descriptor order and the first failing
pipeline fails the whole batch (later pipelines are not started). -/
def uploadFilesGo (opts : UploadOpts) (files : List UFile)
    (env : Nat → FileEnv) (fuel : Nat) :
    List Presigned → Nat → Nat → RunOut (List UploadFileResponse)
  | [], _, clock => ⟨some (.ok []), [], clock⟩
  | p :: ps, i, clock =>
    let U := uploadFile opts files p (env i) fuel clock
    match U.res with
    | none => ⟨none, U.trace, U.clock⟩
    | some (.error e) => ⟨some (.error e), U.trace, U.clock⟩
    | some (.ok r) =>
      let B := uploadFilesGo opts files env fuel ps (i + 1) U.clock
      ⟨B.res.map (fun x => x.map (fun rs => r :: rs)),
        U.trace ++ B.trace, B.clock⟩

/-- DANGEROUS__uploadFiles after a successful presigned fetch: run the
per-file pipelines over the decoded descriptor list (the initial
/api request and its uploadThingResponseSchema decode are abstracted by
passing the decoded list). -/
def DANGEROUS__uploadFiles (opts : UploadOpts) (files : List UFile)
    (env : Nat → FileEnv) (fuel : Nat) (ds : List Presigned) :
    RunOut (List UploadFileResponse) :=
  uploadFilesGo opts files env fuel ds 0 0

/-- Times at which poll requests occur in a trace, in order. -/
def pollTimes : List Ev → List Nat
  | [] => []
  | .pollReq _ t :: es => t :: pollTimes es
  | _ :: es => pollTimes es

/-- Number of poll requests in a trace. -/
def pollCount (es : List Ev) : Nat := (pollTimes es).length

/-- Times of the poll requests addressed to a given url. -/
def pollTimesTo (url : String) : List Ev → List Nat
  | [] => []
  | .pollReq u t :: es =>
    if u == url then t :: pollTimesTo url es else pollTimesTo url es
  | _ :: es => pollTimesTo url es

/-- Standalone outcome of the pipeline of the i-th descriptor (run from clock
0; outcomes are invariant under the starting clock). -/
def pipeRes (opts : UploadOpts) (files : List UFile) (env : Nat → FileEnv)
    (fuel i : Nat) (p : Presigned) : Option (Except UTError UploadFileResponse) :=
  (uploadFile opts files p (env i) fuel 0).res

/-- The ordered list of per-file results when every pipeline succeeds (none
as soon as some pipeline does not succeed). -/
def okResults (opts : UploadOpts) (files : List UFile) (env : Nat → FileEnv)
    (fuel : Nat) : List Presigned → Nat → Option (List UploadFileResponse)
  | [], _ => some []
  | p :: ps, i =>
    match pipeRes opts files env fuel i p with
    | some (.ok r) => (okResults opts files env fuel ps (i + 1)).map (fun rs => r :: rs)
    | _ => none

/-- Driving the exponentialBackoff schedule on its own with instantaneous
failed attempts: state and clock before the n-th step, none once the schedule
has stopped. -/
def backoffRun : Nat → Option (BState × Nat)
  | 0 => some (bInit, 0)
  | n + 1 =>
    (backoffRun n).bind (fun sc =>
      match backoffStep sc.2 .retryError sc.1 with
      | (st1, _, .cont d) => some (st1, sc.2 + d)
      | (_, _, .done) => none)

/-- The n-th inter-poll delay the schedule produces (none once it has
stopped). -/
def backoffDelay (n : Nat) : Option Nat :=
  (backoffRun n).bind (fun sc =>
    match backoffStep sc.2 .retryError sc.1 with
    | (_, _, .cont d) => some d
    | (_, _, .done) => none)

/-- Total backoff delay slept before the n-th poll when every response is
"still waiting" and instantaneous: the sum of the first n exponential
delays. -/
def elapsedN : Nat → Nat
  | 0 => 0
  | n + 1 => elapsedN n + 10 * 4 ^ n

/-- Schedule state after n still-waiting responses, the first of which
arrived at time c. -/
def stateAfter (i c : Nat) : BState :=
  ((i, 0, true), if i = 0 then none else some c)

/-- Trace of the first i polls of a run whose responses are all
"still waiting" and instantaneous, starting at clock c. -/
def swTrace (url : String) (c : Nat) : Nat → List Ev
  | 0 => []
  | i + 1 => swTrace url c i ++ [.pollReq url (c + elapsedN i), .slept (10 * 4 ^ i)]

/-- Shift of a schedule state by a clock translation. -/
def shiftB (d : Nat) : BState → BState
  | (a, none) => (a, none)
  | (a, some t) => (a, some (t + d))

/-- Characterization of one exponentialBackoff step before the elapsed start
is recorded (the first step): it records the current time, outputs elapsed 0,
and continues after the first exponential delay. -/
lemma backoffStep_true_none (now : Nat) (e : UTError) (n m : Nat) :
    backoffStep now e ((n, m, true), none) =
      (((n + 1, m, true), some now), 0, .cont (10 * 4 ^ n)) := by
  simp [backoffStep, exponentialBackoff, Sched.whileOutput, Sched.compose,
    Sched.andThenEither, Sched.elapsed, Sched.exponential, Sched.spaced]

/-- Characterization of one exponentialBackoff step once the elapsed start t0
is recorded: it outputs the elapsed time and continues after the next
exponential delay exactly when the elapsed time is within one minute. -/
lemma backoffStep_true_some (now : Nat) (e : UTError) (n m t0 : Nat) :
    backoffStep now e ((n, m, true), some t0) =
      (((n + 1, m, true), some t0), now - t0,
        if now - t0 ≤ 60000 then .cont (10 * 4 ^ n) else .done) := by
  by_cases h : now - t0 ≤ 60000 <;>
    simp [backoffStep, exponentialBackoff, Sched.whileOutput, Sched.compose,
      Sched.andThenEither, Sched.elapsed, Sched.exponential, Sched.spaced, h]

/-- A clock translation shifts an exponentialBackoff step: same output and
decision, shifted state. -/
lemma backoffStep_shift (d now : Nat) (e : UTError) (st : BState) :
    backoffStep (now + d) e (shiftB d st) =
      ((shiftB d (backoffStep now e st).1),
        (backoffStep now e st).2.1, (backoffStep now e st).2.2) := by
  obtain ⟨⟨n, m, b⟩, o⟩ := st
  cases o with
  | none =>
    cases b <;>
      simp [backoffStep, exponentialBackoff, Sched.whileOutput, Sched.compose,
        Sched.andThenEither, Sched.elapsed, Sched.exponential, Sched.spaced,
        shiftB]
  | some t0 =>
    have harith : now + d - (t0 + d) = now - t0 := by omega
    cases b <;>
      by_cases h : now - t0 ≤ 60000 <;>
        simp [backoffStep, exponentialBackoff, Sched.whileOutput, Sched.compose,
          Sched.andThenEither, Sched.elapsed, Sched.exponential, Sched.spaced,
          shiftB, harith, h]

/-- The outcome of the polling loop is invariant under translating the
starting clock (the schedule only ever uses time differences). -/
lemma runPoll_res_shift (env : FileEnv) (url : String) :
    ∀ fuel d clock st idx,
      (runPoll env url fuel (clock + d) (shiftB d st) idx).res =
        (runPoll env url fuel clock st idx).res := by
  intro fuel
  induction fuel with
  | zero => intro d clock st idx; rfl
  | succ fuel ih =>
    intro d clock st idx
    simp only [runPoll]
    cases hpa : pollAttempt (env.pollBody idx) with
    | ok cd => rfl
    | error e =>
      by_cases hw : retryWhile e
      · have hstep := backoffStep_shift d (clock + env.pollDur idx) e st
        have harith : clock + d + env.pollDur idx = clock + env.pollDur idx + d := by omega
        rw [harith]
        cases hb : backoffStep (clock + env.pollDur idx) e st with
        | mk st1 rest =>
          obtain ⟨out, dec⟩ := rest
          rw [hb] at hstep
          cases dec with
          | done => simp [hw, hstep, hb]
          | cont dd =>
            simp only [hw, if_true, hstep, hb]
            have harith2 : clock + env.pollDur idx + d + dd
                = clock + env.pollDur idx + dd + d := by omega
            rw [harith2, ih]
      · simp [hw]

/-- From the initial schedule state, the polling-loop outcome does not depend
on the starting clock. -/
lemma runPoll_res_clock (env : FileEnv) (url : String) (fuel c1 c2 : Nat) :
    (runPoll env url fuel c1 bInit 0).res = (runPoll env url fuel c2 bInit 0).res := by
  have h1 := runPoll_res_shift env url fuel c1 0 bInit 0
  have h2 := runPoll_res_shift env url fuel c2 0 bInit 0
  have hb : shiftB c1 bInit = bInit := rfl
  have hb2 : shiftB c2 bInit = bInit := rfl
  rw [hb] at h1; rw [hb2] at h2
  simp only [Nat.zero_add] at h1 h2
  rw [h1, h2]

/-- The outcome of one file pipeline does not depend on the clock at which it
starts. -/
lemma uploadFile_res_clock (opts : UploadOpts) (files : List UFile)
    (p : Presigned) (env : FileEnv) (fuel c : Nat) :
    (uploadFile opts files p env fuel c).res =
      (uploadFile opts files p env fuel 0).res := by
  unfold uploadFile
  cases files.find? (fun f => f.name == p.fileName) with
  | none => rfl
  | some file =>
    cases env.transport with
    | fail msg dur => rfl
    | ok dur =>
      simp only
      rw [runPoll_res_clock env p.pollingUrl fuel (c + dur + 500) (0 + dur + 500)]

/-- Poll times distribute over trace concatenation. -/
lemma pollTimes_append (a b : List Ev) :
    pollTimes (a ++ b) = pollTimes a ++ pollTimes b := by
  induction a with
  | nil => rfl
  | cons e es ih => cases e <;> simp [pollTimes, ih]

/-- Every poll issued by the polling loop happens no earlier than the clock
the loop starts at. -/
lemma runPoll_times_ge (env : FileEnv) (url : String) :
    ∀ fuel clock st idx t,
      t ∈ pollTimes (runPoll env url fuel clock st idx).trace → clock ≤ t := by
  intro fuel
  induction fuel with
  | zero => intro clock st idx t ht; simp [runPoll, pollTimes] at ht
  | succ fuel ih =>
    intro clock st idx t ht
    simp only [runPoll] at ht
    split at ht
    · simp [pollTimes] at ht; omega
    · split at ht
      · split at ht
        · simp only [pollTimes, List.mem_cons] at ht
          rcases ht with h | h
          · omega
          · have := ih _ _ _ t h; omega
        · simp [pollTimes] at ht; omega
      · simp [pollTimes] at ht; omega

/-- With positive fuel, the first poll of the polling loop happens exactly at
the clock the loop starts at. -/
lemma runPoll_first_poll (env : FileEnv) (url : String) (fuel clock : Nat)
    (st : BState) (idx : Nat) (hf : 0 < fuel) :
    (pollTimes (runPoll env url fuel clock st idx).trace).head? = some clock := by
  cases fuel with
  | zero => omega
  | succ fuel =>
    simp only [runPoll]
    split
    · simp [pollTimes]
    · split
      · split <;> simp [pollTimes]
      · simp [pollTimes]

/-- The total backoff delay stays within the one-minute ceiling for the first
eight retries. -/
lemma elapsedN_le (i : Nat) (hi : i ≤ 7) : elapsedN i ≤ 60000 := by
  interval_cases i <;> decide

/-- Workhorse: a polling run whose first i responses are instantaneous
"still waiting" answers (i at most 8, so that the schedule keeps continuing)
advances to the i-th poll, having slept the first i exponential delays. -/
lemma runPoll_advance (env : FileEnv) (url : String)
    (hdur : ∀ j, env.pollDur j = 0) :
    ∀ i, i ≤ 8 →
      (∀ j, j < i → decodePollingResponse (env.pollBody j) = .ok .stillWaiting) →
      ∀ fuel c,
        runPoll env url (fuel + i) c bInit 0 =
          { runPoll env url fuel (c + elapsedN i) (stateAfter i c) i with
            trace := swTrace url c i ++
              (runPoll env url fuel (c + elapsedN i) (stateAfter i c) i).trace } := by
  intro i
  induction i with
  | zero =>
    intro _ _ fuel c
    simp [stateAfter, elapsedN, swTrace, bInit]
  | succ i ih =>
    intro hi hsw fuel c
    have hstep := ih (by omega) (fun j hj => hsw j (by omega)) (fuel + 1) c
    have harr : fuel + (i + 1) = fuel + 1 + i := by omega
    rw [harr, hstep]
    have hdur' : env.pollDur i = 0 := hdur i
    have hpa : pollAttempt (env.pollBody i) = .error .retryError := by
      simp [pollAttempt, hsw i (by omega)]
    have hbs : ∃ out, backoffStep (c + elapsedN i) .retryError (stateAfter i c)
        = (stateAfter (i + 1) c, out, .cont (10 * 4 ^ i)) := by
      rcases Nat.eq_zero_or_pos i with h0 | hpos
      · subst h0
        exact ⟨0, by simp [stateAfter, elapsedN, backoffStep_true_none]⟩
      · refine ⟨elapsedN i, ?_⟩
        have hne : i ≠ 0 := by omega
        have hle : elapsedN i ≤ 60000 := elapsedN_le i (by omega)
        simp [stateAfter, hne, backoffStep_true_some, Nat.add_sub_cancel_left, hle]
    obtain ⟨out, hbs⟩ := hbs
    simp only [runPoll, hdur', Nat.add_zero, hpa, retryWhile, if_true, hbs]
    simp [swTrace, elapsedN, Nat.add_assoc]

/-- A run of i instantaneous still-waiting polls contains exactly i poll
requests. -/
lemma pollCount_swTrace (url : String) (c : Nat) :
    ∀ i, pollCount (swTrace url c i) = i := by
  intro i
  induction i with
  | zero => rfl
  | succ i ih =>
    simp [swTrace, pollCount, pollTimes_append, pollTimes] at ih ⊢
    omega

/-- Complete polling run that sees k instantaneous still-waiting responses
(k at most 8) and then a response accepted by pollAttempt: it returns that
value after exactly k + 1 polls. -/
lemma runPoll_done_run (env : FileEnv) (url : String)
    (hdur : ∀ j, env.pollDur j = 0) (k : Nat) (hk : k ≤ 8)
    (hsw : ∀ j, j < k → decodePollingResponse (env.pollBody j) = .ok .stillWaiting)
    (cd : Option JVal) (hdone : pollAttempt (env.pollBody k) = .ok cd)
    (fuel c : Nat) :
    runPoll env url (fuel + 1 + k) c bInit 0 =
      ⟨some (.ok cd), swTrace url c k ++ [.pollReq url (c + elapsedN k)],
        c + elapsedN k⟩ := by
  rw [runPoll_advance env url hdur k hk hsw (fuel + 1) c]
  simp [runPoll, hdur k, hdone]

/-- Complete polling run that sees i instantaneous still-waiting responses
(i at most 8) and then a body the polling schema rejects: it fails with the
ParseError after exactly i + 1 polls, without consulting the schedule. -/
lemma runPoll_parse_run (env : FileEnv) (url : String)
    (hdur : ∀ j, env.pollDur j = 0) (i : Nat) (hi : i ≤ 8)
    (hsw : ∀ j, j < i → decodePollingResponse (env.pollBody j) = .ok .stillWaiting)
    (msg : String) (hbad : decodePollingResponse (env.pollBody i) = .error msg)
    (fuel c : Nat) :
    runPoll env url (fuel + 1 + i) c bInit 0 =
      ⟨some (.error .parseError),
        swTrace url c i ++ [.pollReq url (c + elapsedN i)], c + elapsedN i⟩ := by
  rw [runPoll_advance env url hdur i hi hsw (fuel + 1) c]
  have hpa : pollAttempt (env.pollBody i) = .error .parseError := by
    simp [pollAttempt, hbad]
  simp [runPoll, hdur i, hpa, retryWhile]

/-- Complete polling run in which the first nine instantaneous responses are
all still waiting: at the ninth response the elapsed time (218450 ms) exceeds
the one-minute ceiling, the schedule stops, and the RetryError escapes.  The
run makes exactly nine polls. -/
lemma runPoll_ceiling_run (env : FileEnv) (url : String)
    (hdur : ∀ j, env.pollDur j = 0)
    (hsw : ∀ j, j ≤ 8 → decodePollingResponse (env.pollBody j) = .ok .stillWaiting)
    (fuel c : Nat) :
    runPoll env url (fuel + 1 + 8) c bInit 0 =
      ⟨some (.error .retryError),
        swTrace url c 8 ++ [.pollReq url (c + elapsedN 8)], c + elapsedN 8⟩ := by
  rw [runPoll_advance env url hdur 8 (by omega) (fun j hj => hsw j (by omega)) (fuel + 1) c]
  have hpa : pollAttempt (env.pollBody 8) = .error .retryError := by
    simp [pollAttempt, hsw 8 (by omega)]
  have hbs : backoffStep (c + elapsedN 8) .retryError (stateAfter 8 c)
      = (((9, 0, true), some c), elapsedN 8, .done) := by
    have h8 : elapsedN 8 = 218450 := by decide
    have hgt : ¬ (c + elapsedN 8 - c ≤ 60000) := by omega
    simp [stateAfter, backoffStep_true_some, Nat.add_sub_cancel_left, hgt]
    omega
  simp [runPoll, hdur 8, hpa, retryWhile, hbs]

/-- Concrete local file used by the concrete runs. -/
def theFile : UFile := ⟨"a.txt", 3⟩

/-- Concrete single-part presigned descriptor matching theFile. -/
def thePresigned : Presigned :=
  ⟨"k1", "a.txt", "https://app.example/f/k1", "jwt1", "https://poll.example/k1",
    "inline", none, "image", .psp "https://s3.example/post" [("key", "k1")]⟩

/-- Raw still-waiting poll body. -/
def swJson : JVal := .obj [("status", .str "still waiting")]

/-- Raw done poll body carrying a callbackData payload. -/
def doneJson (cd : JVal) : JVal :=
  .obj [("status", .str "done"), ("callbackData", cd)]

/-- Environment with an instantaneous successful transport and instantaneous
poll responses drawn from the given bodies. -/
def envOf (bodies : Nat → JVal) : FileEnv := ⟨.ok 0, bodies, fun _ => 0⟩

/-- Poll bodies answering still waiting to the first k polls and done (with
the given payload) afterwards. -/
def bodiesK (k : Nat) (cd : JVal) : Nat → JVal :=
  fun j => if j < k then swJson else doneJson cd

/-- Options with an onUploadBegin callback supplied. -/
def theOpts : UploadOpts := ⟨true⟩

/-- Unfolding of the fixture pipeline: the file is found, the single-part
transport succeeds instantly, and after the 500 ms sleep the polling loop
runs from the starting clock plus 500. -/
lemma uploadFile_fixture (bodies : Nat → JVal) (fuel clock : Nat) :
    uploadFile theOpts [theFile] thePresigned (envOf bodies) fuel clock =
      ⟨(runPoll (envOf bodies) "https://poll.example/k1" fuel (clock + 500) bInit 0).res.map
          (fun x => x.map (fun cd => ⟨"a.txt", 3, "k1", cd, "https://utfs.io/f/k1"⟩)),
        .uploadBegin "a.txt" :: .transportStart false "a.txt"
          :: .transportDone "a.txt" clock :: .slept 500
          :: (runPoll (envOf bodies) "https://poll.example/k1" fuel (clock + 500) bInit 0).trace,
        (runPoll (envOf bodies) "https://poll.example/k1" fuel (clock + 500) bInit 0).clock⟩ := rfl

/-- If every per-file pipeline succeeds, the sequential batch returns the
ordered list of their results. -/
lemma uploadFilesGo_ok (opts : UploadOpts) (files : List UFile)
    (env : Nat → FileEnv) (fuel : Nat) :
    ∀ ds i c rs, okResults opts files env fuel ds i = some rs →
      (uploadFilesGo opts files env fuel ds i c).res = some (.ok rs) := by
  intro ds
  induction ds with
  | nil =>
    intro i c rs h
    simp [okResults] at h
    subst h
    rfl
  | cons p ps ih =>
    intro i c rs h
    simp only [okResults] at h
    split at h
    · rename_i r hp
      rw [Option.map_eq_some'] at h
      obtain ⟨rs', hrs', rfl⟩ := h
      have hres : (uploadFile opts files p (env i) fuel c).res = some (.ok r) := by
        rw [uploadFile_res_clock]; exact hp
      have hrec := ih (i + 1) ((uploadFile opts files p (env i) fuel c).clock) rs' hrs'
      simp only [uploadFilesGo, hres, hrec]
      simp [Except.map]
    · simp at h

/-- If the pipelines of the first k descriptors succeed and the pipeline of
the k-th fails, the sequential batch fails with exactly that error. -/
lemma uploadFilesGo_err (opts : UploadOpts) (files : List UFile)
    (env : Nat → FileEnv) (fuel : Nat) :
    ∀ ds i c k (hk : k < ds.length) e,
      (∀ j (hj : j < k),
        ∃ r, pipeRes opts files env fuel (i + j) (ds.get ⟨j, by omega⟩) = some (.ok r)) →
      pipeRes opts files env fuel (i + k) (ds.get ⟨k, hk⟩) = some (.error e) →
      (uploadFilesGo opts files env fuel ds i c).res = some (.error e) := by
  intro ds
  induction ds with
  | nil => intro i c k hk; simp at hk
  | cons p ps ih =>
    intro i c k hk e hpre hfail
    cases k with
    | zero =>
      have hres : (uploadFile opts files p (env i) fuel c).res = some (.error e) := by
        rw [uploadFile_res_clock]
        simpa [pipeRes] using hfail
      simp only [uploadFilesGo, hres]
    | succ k =>
      obtain ⟨r, hr⟩ := hpre 0 (by omega)
      have hres : (uploadFile opts files p (env i) fuel c).res = some (.ok r) := by
        rw [uploadFile_res_clock]
        simpa [pipeRes] using hr
      have hk' : k < ps.length := by simpa using hk
      have hrec := ih (i + 1) ((uploadFile opts files p (env i) fuel c).clock) k hk' e
        (fun j hj => by
          obtain ⟨r', hr'⟩ := hpre (j + 1) (by omega)
          refine ⟨r', ?_⟩
          have harith : i + (j + 1) = i + 1 + j := by omega
          rw [← harith]
          simpa using hr')
        (by
          have harith : i + (k + 1) = i + 1 + k := by omega
          rw [← harith]
          simpa using hfail)
      simp only [uploadFilesGo, hres, hrec]
      simp [Except.map]

/-- Closed form of the standalone schedule run: it is alive before step n
exactly for n at most 8, with the elapsed clock at the sum of the delays
already slept. -/
lemma backoffRun_eq :
    ∀ n, backoffRun n = if n ≤ 8 then some (stateAfter n 0, elapsedN n) else none := by
  intro n
  induction n with
  | zero => simp [backoffRun, stateAfter, elapsedN, bInit]
  | succ n ih =>
    simp only [backoffRun, ih]
    by_cases h : n ≤ 8
    · rw [if_pos h]
      rcases Nat.eq_zero_or_pos n with h0 | hpos
      · subst h0
        simp [stateAfter, elapsedN, backoffStep_true_none]
      · have hne : n ≠ 0 := by omega
        by_cases h8 : n = 8
        · subst h8
          have hgt : ¬ (elapsedN 8 ≤ 60000) := by decide
          simp [stateAfter, backoffStep_true_some, hgt]
        · have h7 : n ≤ 7 := by omega
          have hle : elapsedN n ≤ 60000 := elapsedN_le n h7
          have hs : n + 1 ≤ 8 := by omega
          simp [stateAfter, hne, backoffStep_true_some, hle, hs, elapsedN]
    · rw [if_neg h]
      have hs : ¬ (n + 1 ≤ 8) := by omega
      simp [hs]

/-- Closed form of the delay sequence the exponentialBackoff schedule
produces: the n-th delay is 10 * 4 ^ n for n at most 7, and the schedule has
stopped from step 8 on.  A one-second delay never occurs. -/
lemma backoffDelay_eq :
    ∀ n, backoffDelay n = if n ≤ 7 then some (10 * 4 ^ n) else none := by
  intro n
  simp only [backoffDelay, backoffRun_eq n]
  by_cases h : n ≤ 8
  · rw [if_pos h]
    rcases Nat.eq_zero_or_pos n with h0 | hpos
    · subst h0
      simp [stateAfter, elapsedN, backoffStep_true_none]
    · have hne : n ≠ 0 := by omega
      by_cases h8 : n = 8
      · subst h8
        have hgt : ¬ (elapsedN 8 ≤ 60000) := by decide
        have h7 : ¬ (8 ≤ 7) := by omega
        simp [stateAfter, backoffStep_true_some, hgt, h7]
      · have h7 : n ≤ 7 := by omega
        have hle : elapsedN n ≤ 60000 := elapsedN_le n h7
        simp [stateAfter, hne, backoffStep_true_some, hle, h7]
  · rw [if_neg h]
    have h7 : ¬ (n ≤ 7) := by omega
    simp [h7]

/-- The still-waiting body decodes to the still-waiting polling response. -/
lemma decode_swJson : decodePollingResponse swJson = .ok .stillWaiting := rfl

/-- The done body decodes to the done polling response carrying its
payload. -/
lemma decode_doneJson (cd : JVal) :
    decodePollingResponse (doneJson cd) = .ok (.done (some cd)) := rfl

/-- Claim C4, counterexample.  The claim says the schedule's delay sequence
grows geometrically for a bounded number of steps and is then the constant
one-second spacing.  The code's schedule never produces a 1000 ms delay:
Schedule.exponential never completes, so the spaced(1s) branch of
andThenEither is unreachable, and the exponential delays (never equal to
1000) continue until the elapsed ceiling stops the schedule. -/
theorem claim_C4_counterexample :
    ¬ ∃ N, ∀ n, N ≤ n → backoffDelay n = some 1000 := by
  rintro ⟨N, h⟩
  have h8 := h (N + 8) (by omega)
  rw [backoffDelay_eq] at h8
  have hn : ¬ (N + 8 ≤ 7) := by omega
  simp [hn] at h8

/-- Claim C4, amended: driven with instantaneous failed attempts, the
exponentialBackoff schedule produces the delay 10 * 4 ^ n at every permitted
step; steps are permitted exactly while the elapsed time at the decision is
within one minute (which holds for n at most 7, the elapsed time before step
8 already being 218450 ms), the constant one-second spacing never occurring;
in particular the third delay is 160 ms. -/
theorem claim_C4_amended :
    (∀ n, backoffDelay n = if n ≤ 7 then some (10 * 4 ^ n) else none) ∧
    backoffDelay 2 = some 160 := by
  refine ⟨backoffDelay_eq, ?_⟩
  rw [backoffDelay_eq]
  decide

/-- Claim C1, counterexample.  With k = 9 (the endpoint answers still waiting
to the first nine polls and would answer done to the tenth), the poller does
not make k + 1 = 10 polls and does not return the payload: the one-minute
elapsed ceiling stops the schedule at the ninth still-waiting response, so
exactly nine polls are made and the pipeline fails with the RetryError. -/
theorem claim_C1_counterexample :
    (uploadFile theOpts [theFile] thePresigned
        (envOf (bodiesK 9 (JVal.str "payload"))) 12 0).res
      = some (.error .retryError) ∧
    pollCount (uploadFile theOpts [theFile] thePresigned
        (envOf (bodiesK 9 (JVal.str "payload"))) 12 0).trace = 9 :=
  ⟨rfl, rfl⟩

/-- Claim C1, amended: for every k at most 8 (with instantaneous responses;
beyond that the one-minute ceiling cuts the poller off after nine polls), if
the endpoint answers still waiting to the first k polls and done with payload
cd to the next, the poller makes exactly k + 1 polls, none after the done
response, and the pipeline result carries cd as serverData. -/
theorem claim_C1_amended (cd : JVal) (k fuel : Nat) (hk : k ≤ 8)
    (hf : k + 1 ≤ fuel) :
    (uploadFile theOpts [theFile] thePresigned (envOf (bodiesK k cd)) fuel 0).res
      = some (.ok ⟨"a.txt", 3, "k1", some cd, "https://utfs.io/f/k1"⟩) ∧
    pollCount (uploadFile theOpts [theFile] thePresigned
        (envOf (bodiesK k cd)) fuel 0).trace = k + 1 := by
  obtain ⟨m, rfl⟩ : ∃ m, fuel = m + 1 + k := ⟨fuel - (k + 1), by omega⟩
  rw [uploadFile_fixture]
  rw [runPoll_done_run (envOf (bodiesK k cd)) "https://poll.example/k1"
    (fun j => rfl) k hk
    (fun j hj => by simp [envOf, bodiesK, hj, decode_swJson])
    (some cd)
    (by simp [envOf, bodiesK, pollAttempt, decode_doneJson])
    m 500]
  constructor
  · simp [Except.map]
  · have hc := pollCount_swTrace "https://poll.example/k1" 500 k
    simp [pollCount, pollTimes, pollTimes_append] at hc ⊢
    omega

/-- Witness for the amended claim C1 at k = 3. -/
theorem claim_C1_witness :
    (uploadFile theOpts [theFile] thePresigned
        (envOf (bodiesK 3 (JVal.str "v"))) 4 0).res
      = some (.ok ⟨"a.txt", 3, "k1", some (JVal.str "v"), "https://utfs.io/f/k1"⟩) ∧
    pollCount (uploadFile theOpts [theFile] thePresigned
        (envOf (bodiesK 3 (JVal.str "v"))) 4 0).trace = 3 + 1 :=
  claim_C1_amended (JVal.str "v") 3 4 (by omega) (by omega)

/-- Claim C2, counterexample.  The claim says that once the 60 s ceiling is
exceeded no further poll is issued.  In the run where every response is still
waiting, the polls happen at 500 + 0, 10, 50, 210, 850, 3410, 13650, 54610
and 218450 ms of elapsed backoff: the ninth poll is issued 218450 ms after
polling began, far beyond the 60000 ms ceiling, because the schedule only
checks the elapsed time when a response arrives (the pending 163840 ms sleep
is never interrupted).  The pipeline does fail afterwards with the RetryError
(the code has no separate PollTimeoutError value). -/
theorem claim_C2_counterexample :
    (uploadFile theOpts [theFile] thePresigned (envOf (fun _ => swJson)) 12 0).res
      = some (.error .retryError) ∧
    pollTimes (uploadFile theOpts [theFile] thePresigned
        (envOf (fun _ => swJson)) 12 0).trace
      = [500, 510, 550, 710, 1350, 3910, 14150, 55110, 218950] ∧
    500 + 60000 < 218950 :=
  ⟨rfl, rfl, by omega⟩

/-- Claim C2, amended: if every response up to the ninth poll is an
instantaneous still-waiting answer, the pipeline fails with the RetryError
escaping the exhausted schedule (the role the spec names PollTimeoutError)
after exactly nine polls, and no poll is issued after that failure; the last
poll, however, is issued after the ceiling has already been exceeded. -/
theorem claim_C2_amended (bodies : Nat → JVal) (fuel : Nat)
    (hsw : ∀ j, j ≤ 8 → decodePollingResponse (bodies j) = .ok .stillWaiting)
    (hf : 9 ≤ fuel) :
    (uploadFile theOpts [theFile] thePresigned (envOf bodies) fuel 0).res
      = some (.error .retryError) ∧
    pollCount (uploadFile theOpts [theFile] thePresigned
        (envOf bodies) fuel 0).trace = 9 := by
  obtain ⟨m, rfl⟩ : ∃ m, fuel = m + 1 + 8 := ⟨fuel - 9, by omega⟩
  rw [uploadFile_fixture]
  rw [runPoll_ceiling_run (envOf bodies) "https://poll.example/k1"
    (fun j => rfl) (fun j hj => hsw j hj) m 500]
  constructor
  · simp [Except.map]
  · have hc := pollCount_swTrace "https://poll.example/k1" 500 8
    simp [pollCount, pollTimes, pollTimes_append] at hc ⊢

/-- Witness for the amended claim C2. -/
theorem claim_C2_witness :
    (uploadFile theOpts [theFile] thePresigned (envOf (fun _ => swJson)) 9 0).res
      = some (.error .retryError) ∧
    pollCount (uploadFile theOpts [theFile] thePresigned
        (envOf (fun _ => swJson)) 9 0).trace = 9 :=
  claim_C2_amended (fun _ => swJson) 9 (fun j _ => decode_swJson) (by omega)

/-- Claim C5: if the first i poll responses are instantaneous still-waiting
answers (i at most 8, so the schedule is still going) and the body of poll i
fails to decode as either polling shape, the pipeline fails with the decode
error (spec: ProtocolError; code: the schema ParseError, which is not a
RetryError and hence is not retried) and makes no poll after poll i. -/
theorem claim_C5 (bodies : Nat → JVal) (i fuel : Nat) (hi : i ≤ 8)
    (hf : i + 1 ≤ fuel)
    (hsw : ∀ j, j < i → decodePollingResponse (bodies j) = .ok .stillWaiting)
    (msg : String) (hbad : decodePollingResponse (bodies i) = .error msg) :
    (uploadFile theOpts [theFile] thePresigned (envOf bodies) fuel 0).res
      = some (.error .parseError) ∧
    pollCount (uploadFile theOpts [theFile] thePresigned
        (envOf bodies) fuel 0).trace = i + 1 := by
  obtain ⟨m, rfl⟩ : ∃ m, fuel = m + 1 + i := ⟨fuel - (i + 1), by omega⟩
  rw [uploadFile_fixture]
  rw [runPoll_parse_run (envOf bodies) "https://poll.example/k1"
    (fun j => rfl) i hi (fun j hj => hsw j hj) msg hbad m 500]
  constructor
  · simp [Except.map]
  · have hc := pollCount_swTrace "https://poll.example/k1" 500 i
    simp [pollCount, pollTimes, pollTimes_append] at hc ⊢
    omega

/-- Witness for claim C5: two still-waiting answers, then a body (a bare
string) that decodes as neither polling shape. -/
theorem claim_C5_witness :
    (uploadFile theOpts [theFile] thePresigned
        (envOf (fun j => if j < 2 then swJson else JVal.str "garbage")) 3 0).res
      = some (.error .parseError) ∧
    pollCount (uploadFile theOpts [theFile] thePresigned
        (envOf (fun j => if j < 2 then swJson else JVal.str "garbage")) 3 0).trace
      = 2 + 1 :=
  claim_C5 (fun j => if j < 2 then swJson else JVal.str "garbage") 2 3
    (by omega) (by omega)
    (fun j hj => by interval_cases j <;> rfl)
    "ParseError" rfl

/-- Second concrete local file. -/
def fileB : UFile := ⟨"b.txt", 7⟩

/-- Concrete multipart presigned descriptor matching fileB. -/
def presignedB : Presigned :=
  ⟨"k2", "b.txt", "https://app.example/f/k2", "jwt2", "https://poll.example/k2",
    "attachment", none, "video", .mpu ["https://s3.example/part1"] "up1" 5 1⟩

/-- Concrete descriptor whose fileName matches no supplied file. -/
def presignedX : Presigned :=
  ⟨"k3", "zz.txt", "https://app.example/f/k3", "jwt3", "https://poll.example/k3",
    "inline", none, "image", .psp "https://s3.example/post3" []⟩

/-- Environment whose transport succeeds instantly and whose first poll is
already done. -/
def envDone : FileEnv := envOf (fun _ => doneJson (JVal.str "d"))

/-- Batch environment: every pipeline gets envDone. -/
def env2 : Nat → FileEnv := fun _ => envDone

/-- Batch environment in which the first pipeline succeeds and the second
pipeline's transport fails. -/
def envC7 : Nat → FileEnv :=
  fun i => if i = 0 then envDone else ⟨.fail "boom" 0, fun _ => swJson, fun _ => 0⟩

/-- Claim C3: the batch is all-or-nothing.  If every per-file pipeline
succeeds, the call returns the ordered list of their UploadFileResponse
records (okResults collects them in descriptor order); if the pipelines of
the first k descriptors succeed and the k-th pipeline fails, the whole call
fails with exactly that pipeline's error, so no partial list of successes is
ever returned (Effect.all with default options is sequential and fails
fast). -/
theorem claim_C3 (opts : UploadOpts) (files : List UFile) (env : Nat → FileEnv)
    (fuel : Nat) (ds : List Presigned) :
    (∀ rs, okResults opts files env fuel ds 0 = some rs →
      (DANGEROUS__uploadFiles opts files env fuel ds).res = some (.ok rs)) ∧
    (∀ k (hk : k < ds.length) e,
      (∀ j (hj : j < k),
        ∃ r, pipeRes opts files env fuel j (ds.get ⟨j, by omega⟩) = some (.ok r)) →
      pipeRes opts files env fuel k (ds.get ⟨k, hk⟩) = some (.error e) →
      (DANGEROUS__uploadFiles opts files env fuel ds).res = some (.error e)) := by
  constructor
  · intro rs h
    exact uploadFilesGo_ok opts files env fuel ds 0 0 rs h
  · intro k hk e hpre hfail
    refine uploadFilesGo_err opts files env fuel ds 0 0 k hk e ?_ ?_
    · intro j hj
      simpa using hpre j hj
    · simpa using hfail

/-- Witness for claim C3: a two-file batch in which both pipelines succeed
returns both records in order. -/
theorem claim_C3_witness :
    (DANGEROUS__uploadFiles theOpts [theFile, fileB] env2 3
        [thePresigned, presignedB]).res
      = some (.ok
          [⟨"a.txt", 3, "k1", some (JVal.str "d"), "https://utfs.io/f/k1"⟩,
           ⟨"b.txt", 7, "k2", some (JVal.str "d"), "https://utfs.io/f/k2"⟩]) :=
  (claim_C3 theOpts [theFile, fileB] env2 3 [thePresigned, presignedB]).1 _ rfl

/-- Claim C6: a presigned descriptor whose fileName matches no supplied file
fails its pipeline immediately with the NOT_FOUND UploadThingError, starting
no transport and no poll for that descriptor (its pipeline's trace is empty),
and, provided the pipelines before it succeed, the entire batch call fails
with that NOT_FOUND error, so no partial batch result is produced. -/
theorem claim_C6 (opts : UploadOpts) (files : List UFile) (env : Nat → FileEnv)
    (fuel : Nat) (ds : List Presigned) (i : Nat) (hi : i < ds.length) (c : Nat)
    (hmiss : files.find? (fun f => f.name == (ds.get ⟨i, hi⟩).fileName) = none)
    (hpre : ∀ j (hj : j < i),
      ∃ r, pipeRes opts files env fuel j (ds.get ⟨j, by omega⟩) = some (.ok r)) :
    (DANGEROUS__uploadFiles opts files env fuel ds).res
      = some (.error .notFound) ∧
    uploadFile opts files (ds.get ⟨i, hi⟩) (env i) fuel c
      = ⟨some (.error .notFound), [], c⟩ := by
  have hpipe : ∀ c', uploadFile opts files (ds.get ⟨i, hi⟩) (env i) fuel c'
      = ⟨some (.error .notFound), [], c'⟩ := by
    intro c'
    unfold uploadFile
    rw [hmiss]
  constructor
  · refine uploadFilesGo_err opts files env fuel ds 0 0 i hi .notFound ?_ ?_
    · intro j hj
      simpa using hpre j hj
    · have h0 : pipeRes opts files env fuel i (ds.get ⟨i, hi⟩)
          = some (.error .notFound) := by
        unfold pipeRes
        rw [hpipe 0]
      simpa using h0
  · exact hpipe c

/-- Witness for claim C6: a batch whose first pipeline succeeds and whose
second descriptor matches no file fails whole with NOT_FOUND, the unmatched
pipeline producing no event at all. -/
theorem claim_C6_witness :
    (DANGEROUS__uploadFiles theOpts [theFile] env2 3 [thePresigned, presignedX]).res
      = some (.error .notFound) ∧
    uploadFile theOpts [theFile] presignedX (env2 1) 3 77
      = ⟨some (.error .notFound), [], 77⟩ :=
  claim_C6 theOpts [theFile] env2 3 [thePresigned, presignedX] 1 (by decide) 77
    rfl
    (fun j hj => by
      interval_cases j
      exact ⟨⟨"a.txt", 3, "k1", some (JVal.str "d"), "https://utfs.io/f/k1"⟩, rfl⟩)

/-- Claim C7, counterexample.  The claim says that in every two-file batch in
which one file's transport fails, the succeeding file's poller is never
invoked.  Here the FIRST pipeline succeeds completely (its poller is invoked:
one poll to its polling url at 500 ms) before the SECOND pipeline's transport
fails the batch, because Effect.all runs the pipelines sequentially: the
batch call does fail and returns no partial result, but the succeeding
file's poller ran. -/
theorem claim_C7_counterexample :
    (DANGEROUS__uploadFiles theOpts [theFile, fileB] envC7 3
        [thePresigned, presignedB]).res
      = some (.error (.transportError "boom")) ∧
    pollTimesTo "https://poll.example/k1"
      (DANGEROUS__uploadFiles theOpts [theFile, fileB] envC7 3
        [thePresigned, presignedB]).trace
      = [500] :=
  ⟨rfl, rfl⟩

/-- Claim C7, amended: in a two-file batch in which the FIRST descriptor's
transport fails, the batch call fails with that transport error and the other
(succeeding) file's pipeline is never started, so its poller is never invoked
(the batch trace contains no poll at all) and no partial batch result is
returned.  When the failing file comes second, the batch still fails with its
error and returns no partial result, but the first file's poller has already
run (see the counterexample). -/
theorem claim_C7_amended (opts : UploadOpts) (files : List UFile)
    (env : Nat → FileEnv) (fuel : Nat) (d0 d1 : Presigned) (f0 : UFile)
    (msg : String) (dur : Nat)
    (hfind : files.find? (fun f => f.name == d0.fileName) = some f0)
    (htr : (env 0).transport = .fail msg dur) :
    (DANGEROUS__uploadFiles opts files env fuel [d0, d1]).res
      = some (.error (.transportError msg)) ∧
    pollTimes (DANGEROUS__uploadFiles opts files env fuel [d0, d1]).trace = [] := by
  have hu : uploadFile opts files d0 (env 0) fuel 0
      = ⟨some (.error (.transportError msg)),
          (if opts.hasOnUploadBegin then [Ev.uploadBegin f0.name] else [])
            ++ [.transportStart d0.hasUrls f0.name], 0 + dur⟩ := by
    unfold uploadFile
    rw [hfind, htr]
  simp only [DANGEROUS__uploadFiles, uploadFilesGo, hu]
  refine ⟨by trivial, ?_⟩
  cases hob : opts.hasOnUploadBegin <;> simp [hob, pollTimes_append, pollTimes]

/-- Witness for the amended claim C7: concrete two-file batch whose first
transport fails. -/
theorem claim_C7_witness :
    (DANGEROUS__uploadFiles theOpts [theFile, fileB]
        (fun i => if i = 0 then ⟨.fail "boom" 0, fun _ => swJson, fun _ => 0⟩
          else envDone) 3 [thePresigned, presignedB]).res
      = some (.error (.transportError "boom")) ∧
    pollTimes (DANGEROUS__uploadFiles theOpts [theFile, fileB]
        (fun i => if i = 0 then ⟨.fail "boom" 0, fun _ => swJson, fun _ => 0⟩
          else envDone) 3 [thePresigned, presignedB]).trace = [] :=
  claim_C7_amended theOpts [theFile, fileB]
    (fun i => if i = 0 then ⟨.fail "boom" 0, fun _ => swJson, fun _ => 0⟩
      else envDone) 3 thePresigned presignedB theFile "boom" 0 rfl rfl

/-- Claim C8: when the transport of a file succeeds (completing at
clock + dur), the pipeline sleeps the fixed 500 ms before polling: the first
poll is issued exactly 500 ms after transport completion, and no poll is ever
issued earlier than that. -/
theorem claim_C8 (opts : UploadOpts) (files : List UFile) (p : Presigned)
    (env : FileEnv) (fuel clock dur : Nat) (file : UFile)
    (hfind : files.find? (fun f => f.name == p.fileName) = some file)
    (htr : env.transport = .ok dur) (hf : 0 < fuel) :
    Ev.transportDone file.name (clock + dur)
        ∈ (uploadFile opts files p env fuel clock).trace ∧
    (pollTimes (uploadFile opts files p env fuel clock).trace).head?
        = some (clock + dur + 500) ∧
    ∀ t ∈ pollTimes (uploadFile opts files p env fuel clock).trace,
      clock + dur + 500 ≤ t := by
  have htrace : (uploadFile opts files p env fuel clock).trace
      = (if opts.hasOnUploadBegin then [Ev.uploadBegin file.name] else [])
          ++ Ev.transportStart p.hasUrls file.name
            :: Ev.transportDone file.name (clock + dur) :: Ev.slept 500
            :: (runPoll env p.pollingUrl fuel (clock + dur + 500) bInit 0).trace := by
    unfold uploadFile
    rw [hfind, htr]
  have hpt : pollTimes ((if opts.hasOnUploadBegin then [Ev.uploadBegin file.name] else [])
      ++ Ev.transportStart p.hasUrls file.name
        :: Ev.transportDone file.name (clock + dur) :: Ev.slept 500
        :: (runPoll env p.pollingUrl fuel (clock + dur + 500) bInit 0).trace)
      = pollTimes (runPoll env p.pollingUrl fuel (clock + dur + 500) bInit 0).trace := by
    cases hob : opts.hasOnUploadBegin <;> simp [pollTimes_append, pollTimes]
  refine ⟨?_, ?_, ?_⟩
  · rw [htrace]
    simp
  · rw [htrace, hpt]
    exact runPoll_first_poll env p.pollingUrl fuel (clock + dur + 500) bInit 0 hf
  · intro t ht
    rw [htrace, hpt] at ht
    exact runPoll_times_ge env p.pollingUrl fuel (clock + dur + 500) bInit 0 t ht

/-- Witness for claim C8: concrete pipeline starting at clock 7 whose
transport takes 0 ms; transport completes at 7 and the single poll happens at
507. -/
theorem claim_C8_witness :
    Ev.transportDone "a.txt" 7
        ∈ (uploadFile theOpts [theFile] thePresigned envDone 1 7).trace ∧
    (pollTimes (uploadFile theOpts [theFile] thePresigned envDone 1 7).trace).head?
        = some 507 := by
  have h := claim_C8 theOpts [theFile] thePresigned envDone 1 7 0 theFile rfl rfl
    (by omega)
  exact ⟨h.1, h.2.1⟩

/-- Claim C9: every successful pipeline result copies name and size from the
matched local file and key from the descriptor, and its url is exactly
"https://utfs.io/f/" followed by the descriptor key; the descriptor's own
fileUrl field is never used anywhere in the pipeline (replacing it changes
nothing in the run). -/
theorem claim_C9 (opts : UploadOpts) (files : List UFile) (p : Presigned)
    (env : FileEnv) (fuel clock : Nat) (r : UploadFileResponse)
    (h : (uploadFile opts files p env fuel clock).res = some (.ok r)) :
    (∃ file, files.find? (fun f => f.name == p.fileName) = some file ∧
      r.name = file.name ∧ r.size = file.size) ∧
    r.key = p.key ∧ r.url = "https://utfs.io/f/" ++ p.key ∧
    ∀ u, uploadFile opts files { p with fileUrl := u } env fuel clock
      = uploadFile opts files p env fuel clock := by
  have hirr : ∀ u, uploadFile opts files { p with fileUrl := u } env fuel clock
      = uploadFile opts files p env fuel clock := by
    intro u
    obtain ⟨k, fn, fu, pj, pu, cdisp, cid, ft, ex⟩ := p
    rfl
  have hmain : ∃ file, files.find? (fun f => f.name == p.fileName) = some file ∧
      r.name = file.name ∧ r.size = file.size ∧ r.key = p.key ∧
      r.url = "https://utfs.io/f/" ++ p.key := by
    unfold uploadFile at h
    split at h
    · simp at h
    · rename_i file hf
      split at h <;> split at h <;>
        first
          | (simp at h; done)
          | (simp only [Option.map_eq_some'] at h
             obtain ⟨x, hx, hmap⟩ := h
             cases x with
             | error e => simp [Except.map] at hmap
             | ok cd =>
               simp only [Except.map, Except.ok.injEq] at hmap
               obtain rfl := hmap
               exact ⟨file, hf, rfl, rfl, rfl, rfl⟩)
  obtain ⟨file, hf, h1, h2, h3, h4⟩ := hmain
  exact ⟨⟨file, hf, h1, h2⟩, h3, h4, hirr⟩

/-- Witness for claim C9 on a concrete successful run. -/
theorem claim_C9_witness :
    (⟨"a.txt", 3, "k1", some (JVal.str "d"), "https://utfs.io/f/k1"⟩
        : UploadFileResponse).key = thePresigned.key ∧
    (⟨"a.txt", 3, "k1", some (JVal.str "d"), "https://utfs.io/f/k1"⟩
        : UploadFileResponse).url = "https://utfs.io/f/" ++ thePresigned.key := by
  have h := claim_C9 theOpts [theFile] thePresigned envDone 1 0
    ⟨"a.txt", 3, "k1", some (JVal.str "d"), "https://utfs.io/f/k1"⟩ rfl
  exact ⟨h.2.1, h.2.2.1⟩

/-- Claim C10: when the descriptor's file is found, the pipeline first
invokes onUploadBegin with the file's name (exactly when the callback is
supplied) and then starts exactly one transport, the multipart one precisely
when the descriptor has a urls field (the MPU shape) and the single-part
presigned-POST one otherwise. -/
theorem claim_C10 (opts : UploadOpts) (files : List UFile) (p : Presigned)
    (env : FileEnv) (fuel clock : Nat) (file : UFile)
    (hfind : files.find? (fun f => f.name == p.fileName) = some file) :
    (∃ rest, (uploadFile opts files p env fuel clock).trace =
      (if opts.hasOnUploadBegin then [Ev.uploadBegin file.name] else [])
        ++ Ev.transportStart p.hasUrls file.name :: rest) ∧
    (p.hasUrls = true ↔ ∃ urls uploadId chunkSize chunkCount,
      p.extra = .mpu urls uploadId chunkSize chunkCount) := by
  constructor
  · unfold uploadFile
    rw [hfind]
    cases htr : env.transport with
    | fail msg dur => exact ⟨[], rfl⟩
    | ok dur => exact ⟨_, rfl⟩
  · cases hex : p.extra with
    | psp u fs => simp [Presigned.hasUrls, hex]
    | mpu us ui cs cc => simp [Presigned.hasUrls, hex]

/-- Witness for claim C10 on a concrete multipart descriptor. -/
theorem claim_C10_witness :
    (∃ rest, (uploadFile theOpts [theFile, fileB] presignedB envDone 1 0).trace =
      (if theOpts.hasOnUploadBegin then [Ev.uploadBegin fileB.name] else [])
        ++ Ev.transportStart presignedB.hasUrls fileB.name :: rest) ∧
    (presignedB.hasUrls = true ↔ ∃ urls uploadId chunkSize chunkCount,
      presignedB.extra = .mpu urls uploadId chunkSize chunkCount) :=
  claim_C10 theOpts [theFile, fileB] presignedB envDone 1 0 fileB rfl
